import Mathlib

/-!
Verification of the flex_model activation-instrumentation core.

This file gives a shallow embedding of the repository's three source files:

* `src/utils.py` — the tree codec (`_flatten` / `_unflatten`, the node classes
  `InternalNode`/`TupleNode`/`ListNode`/`BaseModelOutputWithPastNode`,
  `LeafNode`/`TensorNode`, and the type registries), and
* `src/flex_model/core/hook_function.py` — the `HookFunction` orchestrator
  (`_unpack_layer_outputs`, `_concretize_offload_function`,
  `_template_handle_tensor`, `_template_handle_layer_outputs`,
  `default_editing_function`), and
* `src/flex_model/distributed/distributed_api.py` —
  `initialize_distributed_backend`.

Machine tensors are modelled as a shape (list of dimension sizes) plus flat
row-major integer data; Python `None` is the scalar `Scalar.sNone`; fallible
Python code (raising exceptions) is modelled with `Option`/`Except`.
Two collaborators referenced by the sources are not part of the given source
tree (`parse_collect_and_distribute_from_tensor` and `GPUDeviceMesh.build`);
definitions for those are modelled from the specification and are marked
`Modelled from the spec:` in their doc comments.
-/

namespace FlexModel

/-- A scalar (non-container, non-tensor) Python object appearing inside layer
outputs: an int, a bool, or `None`. Scalars carry no array data and are stored
in the template itself by `_flatten`. -/
inductive Scalar where
  | sInt : Int → Scalar
  | sBool : Bool → Scalar
  | sNone : Scalar
deriving DecidableEq, Repr

/-- A `torch.Tensor`: a shape together with flat row-major data. -/
structure Tensor where
  shape : List Nat
  data : List Int
deriving DecidableEq, Repr

/-- `Tensor.detach()` (and `.to("cpu")` / `.clone()`): runtime concerns
(autograd-graph removal, device placement) that do not change the value. -/
def Tensor.detach (t : Tensor) : Tensor := t

/-- A Python object supported by the tree codec: the registered internal
container types (`tuple`, `list`, `BaseModelOutputWithPast` with its four
fields `last_hidden_state`, `past_key_values`, `hidden_states`, `attentions`),
the registered leaf type (`torch.Tensor`), and scalars. -/
inductive Obj where
  | tup : List Obj → Obj
  | lst : List Obj → Obj
  | bmowp : Obj → Obj → Obj → Obj → Obj
  | tensor : Tensor → Obj
  | scalar : Scalar → Obj
deriving Repr

/-- A node of the flattened template tree (`utils.py` node classes):
`TupleNode`, `ListNode`, `BaseModelOutputWithPastNode` hold their children;
`TensorNode` (the only registered `LeafNode`) holds only the shape metadata
(`val = obj.shape`); a scalar node is the scalar object itself. -/
inductive Node where
  | tupleNode : List Node → Node
  | listNode : List Node → Node
  | bmowpNode : List Node → Node
  | tensorNode : List Nat → Node
  | scalarNode : Scalar → Node
deriving Repr

/-- `is_leaf_obj`: the object's type is in `_LEAF_NODE_TYPE_REGISTRY`
(only `torch.Tensor` is registered). -/
def is_leaf_obj : Obj → Bool
  | .tensor _ => true
  | _ => false

/-- `is_internal_obj`: the object's type is in `_INTERNAL_NODE_TYPE_REGISTRY`
(`tuple`, `list` and `BaseModelOutputWithPast` are registered). -/
def is_internal_obj : Obj → Bool
  | .tup _ => true
  | .lst _ => true
  | .bmowp _ _ _ _ => true
  | _ => false

/-- `is_leaf_node`: `isinstance(node, LeafNode)`. -/
def is_leaf_node : Node → Bool
  | .tensorNode _ => true
  | _ => false

/-- `is_internal_node`: `isinstance(node, InternalNode)`. -/
def is_internal_node : Node → Bool
  | .tupleNode _ => true
  | .listNode _ => true
  | .bmowpNode _ => true
  | _ => false

mutual

/-- Structural size measure used to justify termination of the codec
traversals (the `BaseModelOutputWithPast` case destructures the object into
the list of its four fields before recursing, exactly as the source's
generic child loop does). -/
def objSize : Obj → Nat
  | .tensor _ => 1
  | .scalar _ => 1
  | .tup cs => 1 + objSizeList cs
  | .lst cs => 1 + objSizeList cs
  | .bmowp a b c d => 10 + objSize a + objSize b + objSize c + objSize d

/-- Size of a list of children. -/
def objSizeList : List Obj → Nat
  | [] => 0
  | c :: cs => 1 + objSize c + objSizeList cs

end

mutual

/-- `_flatten` (`utils.py:225`): depth-first traversal producing the template
root node and the leaves list. A leaf object emits a `TensorNode` carrying
`obj.shape` and appends the object to `leaves`; an internal object is
destructured by its node class's `flatten` method into the ordered list of
its children (tuple/list: its elements; `BaseModelOutputWithPast`: its four
fields `last_hidden_state`, `past_key_values`, `hidden_states`,
`attentions`) and the generic child loop visits them left to right; any
other object is recorded in the template as a scalar node and contributes no
leaf. -/
def flatten : Obj → Node × List Obj
  | .tensor t => (.tensorNode t.shape, [.tensor t])
  | .scalar s => (.scalarNode s, [])
  | .tup cs => ((.tupleNode (flattenList cs).1), (flattenList cs).2)
  | .lst cs => ((.listNode (flattenList cs).1), (flattenList cs).2)
  | .bmowp a b c d =>
      ((.bmowpNode (flattenList [a, b, c, d]).1), (flattenList [a, b, c, d]).2)
termination_by o => objSize o
decreasing_by all_goals simp [objSize, objSizeList] <;> omega

/-- The generic child loop of `_flatten._dfs`: children are visited left to
right and their leaves are emitted in that order. -/
def flattenList : List Obj → List Node × List Obj
  | [] => ([], [])
  | c :: cs => ((flatten c).1 :: (flattenList cs).1, (flatten c).2 ++ (flattenList cs).2)
termination_by cs => objSizeList cs
decreasing_by all_goals simp [objSize, objSizeList] <;> omega

end

mutual

/-- `_unflatten._dfs` (`utils.py:268`): mirror traversal of the template. A
leaf node consumes the next pending leaf (`leaves.pop()` after the list was
reversed, i.e. FIFO consumption; popping with no leaves left raises, modelled
as `none`); an internal node reconstructs its container from its children's
reconstructed values (`BaseModelOutputWithPast(*children)` pads missing
trailing fields with `None` and rejects more than four children); a scalar
node passes through unchanged. Returns the reconstructed object plus the
still-unconsumed leaves. -/
def unflattenNode : Node → List Obj → Option (Obj × List Obj)
  | .tensorNode _, [] => none
  | .tensorNode _, l :: rest => some (l, rest)
  | .scalarNode s, leaves => some (.scalar s, leaves)
  | .tupleNode cs, leaves =>
      match unflattenList cs leaves with
      | none => none
      | some (os, rest) => some (.tup os, rest)
  | .listNode cs, leaves =>
      match unflattenList cs leaves with
      | none => none
      | some (os, rest) => some (.lst os, rest)
  | .bmowpNode cs, leaves =>
      match unflattenList cs leaves with
      | none => none
      | some (os, rest) =>
          if os.length ≤ 4 then
            some (.bmowp (os.getD 0 (.scalar .sNone)) (os.getD 1 (.scalar .sNone))
                         (os.getD 2 (.scalar .sNone)) (os.getD 3 (.scalar .sNone)), rest)
          else none

/-- Child traversal of `_unflatten._dfs`: children consume leaves left to
right, threading the pending-leaves state. -/
def unflattenList : List Node → List Obj → Option (List Obj × List Obj)
  | [], leaves => some ([], leaves)
  | n :: ns, leaves =>
      match unflattenNode n leaves with
      | none => none
      | some (o, rest) =>
          match unflattenList ns rest with
          | none => none
          | some (os, rest2) => some (o :: os, rest2)

end

/-- `_unflatten` (`utils.py:268`): rebuild the container from the template
root and the leaves list; leftover leaves are ignored, running out of leaves
is an error. -/
def unflatten (root : Node) (leaves : List Obj) : Option Obj :=
  (unflattenNode root leaves).map Prod.fst

/-- Round trip generalized over trailing pending leaves: unflattening the
template produced by `flatten o` against `flatten o`'s leaves followed by any
further pending leaves reconstructs exactly `o` and consumes exactly
`flatten o`'s leaves. -/
theorem unflattenNode_flatten (o : Obj) : ∀ rest : List Obj,
    unflattenNode (flatten o).1 ((flatten o).2 ++ rest) = some (o, rest) :=
  flatten.induct
    (fun o => ∀ rest, unflattenNode (flatten o).1 ((flatten o).2 ++ rest) = some (o, rest))
    (fun cs => ∀ rest, unflattenList (flattenList cs).1 ((flattenList cs).2 ++ rest) = some (cs, rest))
    (by intro t rest; simp [flatten, unflattenNode])
    (by intro s rest; simp [flatten, unflattenNode])
    (by intro cs ih rest; simp [flatten, unflattenNode, ih rest])
    (by intro cs ih rest; simp [flatten, unflattenNode, ih rest])
    (by intro a b c d ih rest
        simp [flatten, unflattenNode, ih rest])
    (by intro rest; simp [flattenList, unflattenList])
    (by intro c cs ihc ihcs rest
        simp [flattenList, unflattenList, List.append_assoc, ihc, ihcs]) o

/-- List version of `unflattenNode_flatten`. -/
theorem unflattenList_flattenList (cs : List Obj) : ∀ rest : List Obj,
    unflattenList (flattenList cs).1 ((flattenList cs).2 ++ rest) = some (cs, rest) :=
  flattenList.induct
    (fun o => ∀ rest, unflattenNode (flatten o).1 ((flatten o).2 ++ rest) = some (o, rest))
    (fun cs => ∀ rest, unflattenList (flattenList cs).1 ((flattenList cs).2 ++ rest) = some (cs, rest))
    (by intro t rest; simp [flatten, unflattenNode])
    (by intro s rest; simp [flatten, unflattenNode])
    (by intro cs ih rest; simp [flatten, unflattenNode, ih rest])
    (by intro cs ih rest; simp [flatten, unflattenNode, ih rest])
    (by intro a b c d ih rest
        simp [flatten, unflattenNode, ih rest])
    (by intro rest; simp [flattenList, unflattenList])
    (by intro c cs ihc ihcs rest
        simp [flattenList, unflattenList, List.append_assoc, ihc, ihcs]) cs

/-- Claim C1: round-trip of the tree codec — for every supported nested
container `x` built from the registered internal types (tuple, list,
`BaseModelOutputWithPast`), registered leaf objects (tensors) and scalars,
`unflatten (flatten x).template (flatten x).leaves` returns a container
structurally equal to `x` with the same leaf values in the same positions
(indeed, equal to `x`). -/
theorem C1_flatten_unflatten_roundtrip (x : Obj) :
    unflatten (flatten x).1 (flatten x).2 = some x := by
  have h := unflattenNode_flatten x []
  rw [List.append_nil] at h
  simp [unflatten, h]

/-! ## Node-tree equality (`InternalNode.__eq__`, `TensorNode.__eq__`) -/

mutual

/-- The recursive `_dfs` helper of `InternalNode.__eq__` (`utils.py:75`):
mismatched Python classes compare unequal; two leaf nodes compare equal
without looking at their stored metadata; two internal nodes of the same
class compare by child count and recursively by children; anything else
(scalar nodes of the same type) compares by value. -/
def dfsEq : Node → Node → Bool
  | .tensorNode _, .tensorNode _ => true
  | .tupleNode cs1, .tupleNode cs2 => dfsEqList cs1 cs2
  | .listNode cs1, .listNode cs2 => dfsEqList cs1 cs2
  | .bmowpNode cs1, .bmowpNode cs2 => dfsEqList cs1 cs2
  | .scalarNode s1, .scalarNode s2 => decide (s1 = s2)
  | _, _ => false

/-- Child comparison of `_dfs`: equal length and pairwise recursive equality
(`len(node1.children) != len(node2.children)` short-circuits to `False`,
otherwise all zipped subtrees must compare equal). -/
def dfsEqList : List Node → List Node → Bool
  | [], [] => true
  | _ :: _, [] => false
  | [], _ :: _ => false
  | c1 :: cs1, c2 :: cs2 => dfsEq c1 c2 && dfsEqList cs1 cs2

end

/-- Python `==` on two node trees as actually dispatched: an internal-node
left operand runs `InternalNode.__eq__` (the `_dfs` traversal); a
`TensorNode` left operand runs `TensorNode.__eq__`, which checks
`isinstance(other, TensorNode)` and then compares the stored metadata
`self.val == other.val`; a scalar left operand compares by value (against a
node object, Python's reflected comparison also yields `False`). -/
def nodeEq : Node → Node → Bool
  | .tupleNode cs1, n2 => dfsEq (.tupleNode cs1) n2
  | .listNode cs1, n2 => dfsEq (.listNode cs1) n2
  | .bmowpNode cs1, n2 => dfsEq (.bmowpNode cs1) n2
  | .tensorNode v1, .tensorNode v2 => decide (v1 = v2)
  | .tensorNode _, _ => false
  | .scalarNode s1, .scalarNode s2 => decide (s1 = s2)
  | .scalarNode _, _ => false

mutual

/-- Modelled from the spec's words (§4.1 Equality), for comparison with the
code's `nodeEq`: two node trees are equal iff they have the same node kind at
every position, the same child count at every internal node, and recursively
equal children; scalar nodes use value equality; leaf nodes are considered
structurally equal — their content (stored shape metadata) is never
compared. -/
def specTreeEq : Node → Node → Bool
  | .tensorNode _, .tensorNode _ => true
  | .tupleNode cs1, .tupleNode cs2 => specTreeEqList cs1 cs2
  | .listNode cs1, .listNode cs2 => specTreeEqList cs1 cs2
  | .bmowpNode cs1, .bmowpNode cs2 => specTreeEqList cs1 cs2
  | .scalarNode s1, .scalarNode s2 => decide (s1 = s2)
  | _, _ => false

/-- Child comparison for `specTreeEq`: same child count and recursively equal
children. -/
def specTreeEqList : List Node → List Node → Bool
  | [], [] => true
  | _ :: _, [] => false
  | [], _ :: _ => false
  | c1 :: cs1, c2 :: cs2 => specTreeEq c1 c2 && specTreeEqList cs1 cs2

end

/-- The `_dfs` comparison coincides with the claimed structural equality at
every pair of subtrees. -/
theorem dfsEq_eq_specTreeEq (n1 n2 : Node) : dfsEq n1 n2 = specTreeEq n1 n2 :=
  dfsEq.induct (fun a b => dfsEq a b = specTreeEq a b)
    (fun cs1 cs2 => dfsEqList cs1 cs2 = specTreeEqList cs1 cs2)
    (by intro a b; rfl)
    (by intro cs1 cs2 ih; simpa [dfsEq, specTreeEq] using ih)
    (by intro cs1 cs2 ih; simpa [dfsEq, specTreeEq] using ih)
    (by intro cs1 cs2 ih; simpa [dfsEq, specTreeEq] using ih)
    (by intro s1 s2; rfl)
    (by intro t x h1 h2 h3 h4 h5
        cases t <;> cases x <;>
          first
          | rfl
          | exact (h1 _ _ rfl rfl).elim
          | exact (h2 _ _ rfl rfl).elim
          | exact (h3 _ _ rfl rfl).elim
          | exact (h4 _ _ rfl rfl).elim)
    (by rfl)
    (by intro hd tl; rfl)
    (by intro hd tl; rfl)
    (by intro c1 cs1 c2 cs2 ih1 ih2
        simp [dfsEqList, specTreeEqList, ih1, ih2])
    n1 n2

/-- Claim C5, counterexample: the claim fails on a pair of node trees whose
roots are leaf nodes. `TensorNode.__eq__` compares the stored shape metadata
by value, so `TensorNode((2,)) == TensorNode((3,))` is `False` in the code,
while the claimed equality ("leaf nodes are always considered structurally
equal with their content never compared") would make them equal. -/
theorem C5_counterexample_leaf_root_metadata_compared :
    nodeEq (.tensorNode [2]) (.tensorNode [3]) = false ∧
    specTreeEq (.tensorNode [2]) (.tensorNode [3]) = true := by
  constructor <;> rfl

/-- Claim C5, amended: node-tree equality as dispatched by the code agrees
with the claimed structural equality (same node kind at every position, same
child count at every internal node, recursively equal children, scalar nodes
by value, leaf nodes below the root never compared by content) in every case
except when both compared trees are bare leaf nodes, in which case
`TensorNode.__eq__` additionally compares the stored shape metadata by
value. -/
theorem C5_nodeEq_spec (n1 n2 : Node) :
    nodeEq n1 n2 = match n1, n2 with
      | .tensorNode v1, .tensorNode v2 => decide (v1 = v2)
      | _, _ => specTreeEq n1 n2 := by
  cases n1 <;> cases n2 <;>
    simp only [nodeEq] <;>
    first
    | rfl
    | exact dfsEq_eq_specTreeEq _ _

/-! ## Generic list helpers -/

/-- Setting an index and then taking a strictly shorter prefix ignores the
write. -/
theorem take_set_self {α : Type} (l : List α) (i : Nat) (a : α) :
    (l.set i a).take i = l.take i := by
  induction l generalizing i with
  | nil => simp
  | cons hd tl ih =>
      cases i with
      | zero => simp
      | succ j => simpa using ih j

/-- Setting an index and then dropping past it ignores the write. -/
theorem drop_set_succ {α : Type} (l : List α) (i : Nat) (a : α) :
    (l.set i a).drop (i + 1) = l.drop (i + 1) := by
  induction l generalizing i with
  | nil => simp
  | cons hd tl ih =>
      cases i with
      | zero => simp
      | succ j => simpa using ih j

/-- Writing back the element already stored at an index is a no-op. -/
theorem set_getElem_self {α : Type} (l : List α) (i : Nat) (h : i < l.length) :
    l.set i l[i] = l := by
  induction l generalizing i with
  | nil => simp at h
  | cons hd tl ih =>
      cases i with
      | zero => simp
      | succ j => simpa using ih j (by simpa using h)

/-! ## Leaf counting and single-leaf replacement -/

mutual

/-- Number of leaf (tensor) objects in an object tree, in `_flatten`'s
depth-first order. -/
def numLeaves : Obj → Nat
  | .tensor _ => 1
  | .scalar _ => 0
  | .tup cs => numLeavesList cs
  | .lst cs => numLeavesList cs
  | .bmowp a b c d => numLeaves a + numLeaves b + numLeaves c + numLeaves d

/-- Number of leaf objects under a list of children. -/
def numLeavesList : List Obj → Nat
  | [] => 0
  | c :: cs => numLeaves c + numLeavesList cs

end

mutual

/-- Number of `LeafNode`s in a template tree. -/
def numLeafNodes : Node → Nat
  | .tensorNode _ => 1
  | .scalarNode _ => 0
  | .tupleNode cs => numLeafNodesList cs
  | .listNode cs => numLeafNodesList cs
  | .bmowpNode cs => numLeafNodesList cs

/-- Number of `LeafNode`s under a list of template children. -/
def numLeafNodesList : List Node → Nat
  | [] => 0
  | n :: ns => numLeafNodes n + numLeafNodesList ns

end

mutual

/-- Replace exactly the `i`-th leaf (in `_flatten`'s depth-first order) of an
object tree with the replacement object, leaving every other leaf, every
scalar and the container structure unchanged; out-of-range indices change
nothing. This is the specification-side description of what repacking an
edited activation tensor must do (claim C9). -/
def replaceLeafAt : Obj → Nat → Obj → Obj
  | .tensor t, i, r => if i = 0 then r else .tensor t
  | .scalar s, _, _ => .scalar s
  | .tup cs, i, r => .tup (replaceLeafAtList cs i r)
  | .lst cs, i, r => .lst (replaceLeafAtList cs i r)
  | .bmowp a b c d, i, r =>
      .bmowp (if i < numLeaves a then replaceLeafAt a i r else a)
        (if numLeaves a ≤ i ∧ i < numLeaves a + numLeaves b then
          replaceLeafAt b (i - numLeaves a) r else b)
        (if numLeaves a + numLeaves b ≤ i ∧
            i < numLeaves a + numLeaves b + numLeaves c then
          replaceLeafAt c (i - numLeaves a - numLeaves b) r else c)
        (if numLeaves a + numLeaves b + numLeaves c ≤ i ∧
            i < numLeaves a + numLeaves b + numLeaves c + numLeaves d then
          replaceLeafAt d (i - numLeaves a - numLeaves b - numLeaves c) r else d)

/-- Replace the `i`-th leaf under a list of children. -/
def replaceLeafAtList : List Obj → Nat → Obj → List Obj
  | [], _, _ => []
  | c :: cs, i, r =>
      (if i < numLeaves c then replaceLeafAt c i r else c) ::
      (if numLeaves c ≤ i then replaceLeafAtList cs (i - numLeaves c) r else cs)

end

/-- The leaves list produced by `_flatten` has exactly `numLeaves` entries. -/
theorem length_flatten_leaves (o : Obj) : (flatten o).2.length = numLeaves o :=
  flatten.induct (fun o => (flatten o).2.length = numLeaves o)
    (fun cs => (flattenList cs).2.length = numLeavesList cs)
    (by intro t; simp [flatten, numLeaves])
    (by intro s; simp [flatten, numLeaves])
    (by intro cs ih; simpa [flatten, numLeaves] using ih)
    (by intro cs ih; simpa [flatten, numLeaves] using ih)
    (by intro a b c d ih
        simp only [numLeavesList] at ih
        simp [flatten, numLeaves, ih]
        omega)
    (by simp [flattenList, numLeavesList])
    (by intro c cs ihc ihcs
        simp [flattenList, numLeavesList, ihc, ihcs]) o

/-- List version of `length_flatten_leaves`. -/
theorem length_flattenList_leaves (cs : List Obj) :
    (flattenList cs).2.length = numLeavesList cs :=
  flattenList.induct (fun o => (flatten o).2.length = numLeaves o)
    (fun cs => (flattenList cs).2.length = numLeavesList cs)
    (by intro t; simp [flatten, numLeaves])
    (by intro s; simp [flatten, numLeaves])
    (by intro cs ih; simpa [flatten, numLeaves] using ih)
    (by intro cs ih; simpa [flatten, numLeaves] using ih)
    (by intro a b c d ih
        simp only [numLeavesList] at ih
        simp [flatten, numLeaves, ih]
        omega)
    (by simp [flattenList, numLeavesList])
    (by intro c cs ihc ihcs
        simp [flattenList, numLeavesList, ihc, ihcs]) cs

/-- Every entry of `_flatten`'s leaves list is a registered leaf object. -/
theorem flatten_leaves_are_leaf_objs (o : Obj) :
    ∀ x ∈ (flatten o).2, is_leaf_obj x = true :=
  flatten.induct (fun o => ∀ x ∈ (flatten o).2, is_leaf_obj x = true)
    (fun cs => ∀ x ∈ (flattenList cs).2, is_leaf_obj x = true)
    (by intro t x hx
        simp only [flatten, List.mem_singleton] at hx
        simp [hx, is_leaf_obj])
    (by intro s x hx; simp [flatten] at hx)
    (by intro cs ih x hx; exact ih x (by simpa [flatten] using hx))
    (by intro cs ih x hx; exact ih x (by simpa [flatten] using hx))
    (by intro a b c d ih x hx
        exact ih x (by simpa [flatten] using hx))
    (by intro x hx; simp [flattenList] at hx)
    (by intro c cs ihc ihcs x hx
        simp only [flattenList, List.mem_append] at hx
        rcases hx with hx | hx
        · exact ihc x hx
        · exact ihcs x hx) o

/-- The template produced by `_flatten` has exactly one `LeafNode` per entry
of the leaves list. -/
theorem numLeafNodes_flatten (o : Obj) :
    numLeafNodes (flatten o).1 = (flatten o).2.length :=
  flatten.induct (fun o => numLeafNodes (flatten o).1 = (flatten o).2.length)
    (fun cs => numLeafNodesList (flattenList cs).1 = (flattenList cs).2.length)
    (by intro t; simp [flatten, numLeafNodes])
    (by intro s; simp [flatten, numLeafNodes])
    (by intro cs ih; simpa [flatten, numLeafNodes] using ih)
    (by intro cs ih; simpa [flatten, numLeafNodes] using ih)
    (by intro a b c d ih
        simpa [flatten, numLeafNodes] using ih)
    (by simp [flattenList, numLeafNodesList])
    (by intro c cs ihc ihcs
        simp [flattenList, numLeafNodesList, ihc, ihcs]) o

/-- Replacing a leaf preserves the number of children. -/
theorem length_replaceLeafAtList (cs : List Obj) :
    ∀ (i : Nat) (r : Obj), (replaceLeafAtList cs i r).length = cs.length := by
  induction cs with
  | nil => intro i r; simp [replaceLeafAtList]
  | cons c cs ih =>
      intro i r
      simp only [replaceLeafAtList, List.length_cons]
      by_cases h : numLeaves c ≤ i
      · simp [h, ih]
      · simp [h]

/-- Unfolding of `replaceLeafAtList` on a four-element children list, in the
shape of `replaceLeafAt`'s `BaseModelOutputWithPast` case. -/
theorem replaceLeafAtList_four (a b c d : Obj) (i : Nat) (r : Obj) :
    replaceLeafAtList [a, b, c, d] i r =
      [if i < numLeaves a then replaceLeafAt a i r else a,
       if numLeaves a ≤ i ∧ i < numLeaves a + numLeaves b then
         replaceLeafAt b (i - numLeaves a) r else b,
       if numLeaves a + numLeaves b ≤ i ∧
           i < numLeaves a + numLeaves b + numLeaves c then
         replaceLeafAt c (i - numLeaves a - numLeaves b) r else c,
       if numLeaves a + numLeaves b + numLeaves c ≤ i ∧
           i < numLeaves a + numLeaves b + numLeaves c + numLeaves d then
         replaceLeafAt d (i - numLeaves a - numLeaves b - numLeaves c) r else d] := by
  simp only [replaceLeafAtList]
  split_ifs <;> first | rfl | (exfalso; omega)

/-- Unflattening a template against its own leaves list with the entry at an
in-range index replaced reconstructs the original object with exactly that
leaf replaced (generalized over trailing pending leaves). -/
theorem unflattenNode_flatten_set (o : Obj) :
    ∀ (i : Nat) (r : Obj) (rest : List Obj), i < (flatten o).2.length →
    unflattenNode (flatten o).1 ((flatten o).2.set i r ++ rest) =
      some (replaceLeafAt o i r, rest) :=
  flatten.induct
    (fun o => ∀ i r rest, i < (flatten o).2.length →
      unflattenNode (flatten o).1 ((flatten o).2.set i r ++ rest) =
        some (replaceLeafAt o i r, rest))
    (fun cs => ∀ i r rest, i < (flattenList cs).2.length →
      unflattenList (flattenList cs).1 ((flattenList cs).2.set i r ++ rest) =
        some (replaceLeafAtList cs i r, rest))
    (by intro t i r rest hi
        simp only [flatten, List.length_cons, List.length_nil] at hi
        have : i = 0 := by omega
        subst this
        simp [flatten, unflattenNode, replaceLeafAt])
    (by intro s i r rest hi
        simp [flatten] at hi)
    (by intro cs ih i r rest hi
        simp only [flatten] at hi ⊢
        simp [unflattenNode, ih i r rest hi, replaceLeafAt])
    (by intro cs ih i r rest hi
        simp only [flatten] at hi ⊢
        simp [unflattenNode, ih i r rest hi, replaceLeafAt])
    (by intro a b c d ih i r rest hi
        simp only [flatten] at hi ⊢
        have h4 : (replaceLeafAtList [a, b, c, d] i r).length ≤ 4 := by
          simp [length_replaceLeafAtList]
        simp [unflattenNode, ih i r rest hi, h4, replaceLeafAt,
          replaceLeafAtList_four])
    (by intro i r rest hi
        simp [flattenList] at hi)
    (by intro c cs ihc ihcs i r rest hi
        have lc := length_flatten_leaves c
        simp only [flattenList, List.length_append] at hi
        simp only [flattenList, unflattenList, List.set_append, lc]
        by_cases h : i < numLeaves c
        · rw [if_pos h, List.append_assoc]
          simp only [ihc i r ((flattenList cs).2 ++ rest) (by omega),
            unflattenList_flattenList cs rest]
          simp only [replaceLeafAtList]
          rw [if_pos h, if_neg (by omega)]
        · rw [if_neg h, List.append_assoc]
          simp only [unflattenNode_flatten c
              ((flattenList cs).2.set (i - numLeaves c) r ++ rest),
            ihcs (i - numLeaves c) r rest (by omega)]
          simp only [replaceLeafAtList]
          rw [if_neg h, if_pos (by omega)]) o

/-! ## `HookFunction._unpack_layer_outputs` (`hook_function.py:184`) -/

/-- Failures of `_unpack_layer_outputs`: `missingLeaf` is the `IndexError`
raised by `leaves[self.unpack_idx]` when no leaf exists at the configured
index (the spec's `MissingLeafError`); `assertionFailed` is the
`assert tensor is not None` guard. -/
inductive UnpackError where
  | missingLeaf
  | assertionFailed
deriving DecidableEq, Repr

/-- `None`-test used by the `assert tensor is not None` guard. -/
def isNoneObj : Obj → Bool
  | .scalar .sNone => true
  | _ => false

/-- `HookFunction._unpack_layer_outputs`: flatten the layer outputs, select
the leaf at `unpack_idx` (an absent index raises, modelled as
`missingLeaf`), assert it is not `None`, and hold the leaves before and
after it aside for later repacking. Returns the selected activation object
together with the repacking frame (template, left leaves, right leaves);
the source returns the same data as a `_repack` closure. Python also
accepts a negative `unpack_idx` counted from the end of the leaves list;
indices are modelled as the non-negative positions, where absence fails
identically. -/
def unpack_layer_outputs (unpackIdx : Nat) (outputs : Obj) :
    Except UnpackError (Obj × Node × List Obj × List Obj) :=
  let treedef := (flatten outputs).1
  let leaves := (flatten outputs).2
  if h : unpackIdx < leaves.length then
    let tensor := leaves.get ⟨unpackIdx, h⟩
    if isNoneObj tensor then .error .assertionFailed
    else .ok (tensor, treedef, leaves.take unpackIdx, leaves.drop (unpackIdx + 1))
  else .error .missingLeaf

/-- The `_repack` closure returned by `_unpack_layer_outputs`: pack the
(edited) activation back into the layer-output container by unflattening
the saved template against `left_leaves + [edited_tensor] + right_leaves`. -/
def repack (treedef : Node) (left right : List Obj) (editedTensor : Obj) : Option Obj :=
  unflatten treedef (left ++ [editedTensor] ++ right)

/-- Claim C8: for every layer-output container and configured unpack index,
if the flattened leaves list has no leaf at that index (in particular when
the container holds no leaf at all), `_unpack_layer_outputs` fails with the
missing-leaf error (the spec's `MissingLeafError`) instead of proceeding. -/
theorem C8_unpack_missing_leaf_fails (outputs : Obj) (unpackIdx : Nat)
    (h : (flatten outputs).2.length ≤ unpackIdx) :
    unpack_layer_outputs unpackIdx outputs = .error .missingLeaf := by
  simp only [unpack_layer_outputs]
  rw [dif_neg (by omega)]

/-- Witness for C8: a container holding no leaf at all (a tuple of a scalar)
makes unpacking at index 0 fail with the missing-leaf error. -/
theorem C8_witness :
    (flatten (.tup [.scalar (.sInt 1)])).2.length ≤ 0 ∧
    unpack_layer_outputs 0 (.tup [.scalar (.sInt 1)]) = .error .missingLeaf :=
  ⟨by simp [flatten, flattenList], C8_unpack_missing_leaf_fails _ 0 (by simp [flatten, flattenList])⟩

/-- Claim C10: flatten leaf-list purity — every element of the leaves list
returned by `_flatten` is an object of the registered leaf type (never
`None`: `None`-valued fields become scalar nodes, not leaves), the number of
leaves equals the number of `LeafNode`s in the returned template, and hence
the `assert tensor is not None` guard in `_unpack_layer_outputs` can never
fire for an in-range unpack index. -/
theorem C10_flatten_leaf_purity (o : Obj) :
    (∀ x ∈ (flatten o).2, is_leaf_obj x = true) ∧
    numLeafNodes (flatten o).1 = (flatten o).2.length ∧
    (∀ idx : Nat, idx < (flatten o).2.length →
      unpack_layer_outputs idx o ≠ .error .assertionFailed) := by
  refine ⟨flatten_leaves_are_leaf_objs o, numLeafNodes_flatten o, ?_⟩
  intro idx hidx
  have hleaf : is_leaf_obj ((flatten o).2[idx]) = true :=
    flatten_leaves_are_leaf_objs o _ (List.getElem_mem hidx)
  have hnone : isNoneObj ((flatten o).2[idx]) = false := by
    cases hget : (flatten o).2[idx] <;>
      simp_all [is_leaf_obj, isNoneObj]
  simp only [unpack_layer_outputs]
  rw [dif_pos hidx]
  simp [hnone]

/-- Witness for C10: the purity facts evaluated on a concrete container, and
the in-range index 0 of a concrete container does not trip the assertion. -/
theorem C10_witness :
    (0 : Nat) < (flatten (.lst [.scalar .sNone, .tensor ⟨[1], [7]⟩])).2.length ∧
    unpack_layer_outputs 0 (.lst [.scalar .sNone, .tensor ⟨[1], [7]⟩]) ≠
      .error .assertionFailed :=
  ⟨by simp [flatten, flattenList],
   (C10_flatten_leaf_purity (.lst [.scalar .sNone, .tensor ⟨[1], [7]⟩])).2.2 0
     (by simp [flatten, flattenList])⟩

/-! ## The output sink and `HookFunction._concretize_offload_function`
(`hook_function.py:228`) -/

/-- The shared output sink `_shared_state.output_ptr`: an insertion-ordered
mapping from module name to the ordered list of captured activation
tensors. -/
abbrev Sink := List (String × List Tensor)

/-- Dictionary lookup `output_ptr.get(name, False)` (minus the truthiness,
which the offload functions apply themselves). -/
def sinkGet (s : Sink) (k : String) : Option (List Tensor) :=
  match s with
  | [] => none
  | (k1, v) :: rest => if k1 = k then some v else sinkGet rest k

/-- Dictionary write `output_ptr[name] = v`. -/
def sinkSet (s : Sink) (k : String) (v : List Tensor) : Sink :=
  match s with
  | [] => [(k, v)]
  | (k1, v1) :: rest => if k1 = k then (k, v) :: rest else (k1, v1) :: sinkSet rest k v

/-- `_offload_tensor_to_cpu` (`hook_function.py:234`), with the three runtime
guard probes (`torch.distributed.is_initialized`,
`dist.activation_parallel_is_initialized`, `dist.in_pipeline_parallel_group`)
passed in as booleans: when the guard admits collection, append the detached
tensor to the existing per-module list if `output_ptr.get(module_name,
False)` is truthy (present and non-empty), otherwise start a fresh
single-element list; when the guard rejects, do nothing. The non-blocking
CPU copy is value-preserving (`Tensor.detach`). -/
def offload_tensor_to_cpu (usingTorchDist usingActDist inPPGroup : Bool)
    (moduleName : String) (activation : Tensor) (sink : Sink) : Sink :=
  if !usingTorchDist || (usingActDist && inPPGroup) then
    match sinkGet sink moduleName with
    | some (x :: xs) => sinkSet sink moduleName ((x :: xs) ++ [activation.detach])
    | _ => sinkSet sink moduleName [activation.detach]
  else sink

/-- `_offload_tensor_to_gpu` (`hook_function.py:249`): identical sink
behavior, capturing `activation.detach().clone()` on-device. -/
def offload_tensor_to_gpu (usingTorchDist usingActDist inPPGroup : Bool)
    (moduleName : String) (activation : Tensor) (sink : Sink) : Sink :=
  if !usingTorchDist || (usingActDist && inPPGroup) then
    match sinkGet sink moduleName with
    | some (x :: xs) => sinkSet sink moduleName ((x :: xs) ++ [activation.detach])
    | _ => sinkSet sink moduleName [activation.detach]
  else sink

/-- The `offload_mode` selector of the shared state (`"CPU"` or `"GPU"`). -/
inductive OffloadMode where
  | cpu
  | gpu
deriving DecidableEq, Repr

/-- `_concretize_offload_function`: the `mode_to_fn` dispatch on
`_shared_state.offload_mode`. -/
def concretize_offload_function (usingTorchDist usingActDist inPPGroup : Bool)
    (mode : OffloadMode) (moduleName : String) : Tensor → Sink → Sink :=
  match mode with
  | .cpu => offload_tensor_to_cpu usingTorchDist usingActDist inPPGroup moduleName
  | .gpu => offload_tensor_to_gpu usingTorchDist usingActDist inPPGroup moduleName

/-- Reading back a key just written. -/
theorem sinkGet_sinkSet (s : Sink) (k : String) (v : List Tensor) :
    sinkGet (sinkSet s k v) k = some v := by
  induction s with
  | nil => simp [sinkGet, sinkSet]
  | cons hd tl ih =>
      obtain ⟨k1, v1⟩ := hd
      by_cases h : k1 = k
      · simp [sinkGet, sinkSet, h]
      · simp [sinkGet, sinkSet, h, ih]

/-- One guarded offload call onto an existing non-empty entry appends. -/
theorem offload_step_append (utd uad ipp : Bool) (mode : OffloadMode)
    (name : String) (t : Tensor) (s : Sink) (x : Tensor) (xs : List Tensor)
    (hguard : (!utd || (uad && ipp)) = true)
    (hcur : sinkGet s name = some (x :: xs)) :
    sinkGet (concretize_offload_function utd uad ipp mode name t s) name =
      some ((x :: xs) ++ [t.detach]) := by
  cases mode <;>
    simp [concretize_offload_function, offload_tensor_to_cpu,
      offload_tensor_to_gpu, hguard, hcur, sinkGet_sinkSet]

/-- One guarded offload call onto a missing (or empty, hence falsy) entry
starts a fresh singleton list. -/
theorem offload_step_fresh (utd uad ipp : Bool) (mode : OffloadMode)
    (name : String) (t : Tensor) (s : Sink)
    (hguard : (!utd || (uad && ipp)) = true)
    (hcur : sinkGet s name = none ∨ sinkGet s name = some []) :
    sinkGet (concretize_offload_function utd uad ipp mode name t s) name =
      some [t.detach] := by
  rcases hcur with hcur | hcur <;>
    cases mode <;>
      simp [concretize_offload_function, offload_tensor_to_cpu,
        offload_tensor_to_gpu, hguard, hcur, sinkGet_sinkSet]

/-- Folding guarded offload calls over a list of tensors extends a non-empty
entry by the captured tensors in call order. -/
theorem offload_foldl_append (utd uad ipp : Bool) (mode : OffloadMode)
    (name : String) (ts : List Tensor) :
    ∀ (s : Sink) (x : Tensor) (xs : List Tensor),
      (!utd || (uad && ipp)) = true →
      sinkGet s name = some (x :: xs) →
      sinkGet (ts.foldl
          (fun acc t => concretize_offload_function utd uad ipp mode name t acc) s) name =
        some ((x :: xs) ++ ts.map Tensor.detach) := by
  induction ts with
  | nil => intro s x xs hguard hcur; simpa using hcur
  | cons t ts ih =>
      intro s x xs hguard hcur
      simp only [List.foldl_cons, List.map_cons]
      rw [ih _ x (xs ++ [t.detach]) hguard
        (by simpa using offload_step_append utd uad ipp mode name t s x xs hguard hcur)]
      simp

/-- Claim C6: offload accumulation — with offloading not guarded off (no
torch-distributed runtime active, or activation-parallel initialized and the
rank inside a pipeline-parallel group), invoking the concretized offload
function `n` times with tensors `t1..tn` for the same module name, starting
from a sink with no entry for that name, leaves the sink holding under that
name a list of exactly the `n` captured (detached) tensors in call order;
earlier entries are appended to, never overwritten. -/
theorem C6_offload_accumulation (utd uad ipp : Bool) (mode : OffloadMode)
    (name : String) (ts : List Tensor) (s0 : Sink)
    (hguard : (!utd || (uad && ipp)) = true)
    (h0 : sinkGet s0 name = none)
    (hn : ts ≠ []) :
    sinkGet (ts.foldl
        (fun acc t => concretize_offload_function utd uad ipp mode name t acc) s0) name =
      some (ts.map Tensor.detach) := by
  cases ts with
  | nil => exact absurd rfl hn
  | cons t ts =>
      simp only [List.foldl_cons, List.map_cons]
      rcases ts with _ | ⟨t2, ts'⟩
      · simpa using offload_step_fresh utd uad ipp mode name t s0 hguard (Or.inl h0)
      · rw [offload_foldl_append utd uad ipp mode name _ _ t.detach [] hguard
          (offload_step_fresh utd uad ipp mode name t s0 hguard (Or.inl h0))]
        simp

/-- Witness for C6: two offload calls on a fresh sink accumulate both tensors
in call order. -/
theorem C6_witness :
    (!false || (false && false)) = true ∧
    sinkGet ([] : Sink) "m" = none ∧
    ([⟨[1], [3]⟩, ⟨[2], [4, 5]⟩] : List Tensor) ≠ [] ∧
    sinkGet (([⟨[1], [3]⟩, ⟨[2], [4, 5]⟩] : List Tensor).foldl
        (fun acc t => concretize_offload_function false false false .cpu "m" t acc) []) "m" =
      some (([⟨[1], [3]⟩, ⟨[2], [4, 5]⟩] : List Tensor).map Tensor.detach) :=
  ⟨rfl, rfl, by simp,
   C6_offload_accumulation false false false .cpu "m" _ [] rfl rfl (by simp)⟩

/-! ## `HookFunction._template_handle_tensor` (`hook_function.py:372`) -/

/-- Opaque stand-in for the hooked `nn.Module` handle (`None` for
tensor-level hooks). -/
abbrev Module := Option Unit

/-- Opaque stand-in for the shared save context namespace. -/
abbrev SaveCtx := Unit

/-- Opaque stand-in for the shared trainable-modules dictionary. -/
abbrev Modules := Unit

/-- The four lazily-populated runtime functions of a `HookFunction`
(`self._collect`, `self._disperse`, `self._edit`, `self._offload`), each
`None` until concretized. -/
structure RuntimeFns where
  collect : Option (Tensor → Tensor)
  disperse : Option (Tensor → Tensor)
  edit : Option (Module → Tensor → SaveCtx → Modules → Tensor)
  offload : Option (Tensor → Sink → Sink)

/-- Failures of the tensor pipeline: `stateCorruption` is the
`raise Exception("HookFunction runtime functions are only partially
defined...")` branch; `noneNotCallable` is the Python `TypeError` from
calling a runtime function that is still `None`; `shapeMismatchAssert` is
the final `assert start_shape == tensor.shape` (the spec's
`ShapeMismatchError`). -/
inductive HookError where
  | stateCorruption
  | noneNotCallable
  | shapeMismatchAssert
deriving DecidableEq, Repr

/-- `default_editing_function` (`hook_function.py:37`): the no-op editing
function installed when the user provides none; returns its activation
tensor unchanged. -/
def default_editing_function (currentModule : Module) (inputs : Tensor)
    (saveCtx : SaveCtx) (modules : Modules) : Tensor :=
  inputs

/-- `_parse_editing_function` (`hook_function.py:23`): the default parsing
pass is the identity. -/
def parse_editing_function
    (editFunction : Module → Tensor → SaveCtx → Modules → Tensor) :
    Module → Tensor → SaveCtx → Modules → Tensor :=
  editFunction

/-- `HookFunction._template_handle_tensor` (`hook_function.py:372`) for a
single invocation. It records `start_shape`, then branches on the
undefined-ness of the four runtime functions exactly as the source does
(`if all(fns_are_undefined): concretize; elif not all(fns_are_undefined):
pass; else: raise`), then runs `collect`, `offload`, `edit` (with the
module handle, the shared save context and trainable modules), `disperse`,
and finally asserts that the output shape equals `start_shape`. Calling a
still-`None` function is the Python `TypeError`. The source caches the
concretized functions on `self` for later invocations; a single invocation's
behavior, which is what the claims quantify over, depends only on the pre-
and post-concretization functions threaded here. -/
def templateHandleTensor (fns : RuntimeFns) (concretize : Tensor → RuntimeFns)
    (module : Module) (saveCtx : SaveCtx) (modules : Modules)
    (sink : Sink) (t : Tensor) : Except HookError (Sink × Tensor) :=
  let startShape := t.shape
  let fnsAreUndefined :=
    [fns.collect.isNone, fns.disperse.isNone, fns.edit.isNone, fns.offload.isNone]
  let step : Except HookError RuntimeFns :=
    if fnsAreUndefined.all (· = true) then .ok (concretize t)
    else if ¬ (fnsAreUndefined.all (· = true)) then .ok fns
    else .error .stateCorruption
  match step with
  | .error e => .error e
  | .ok s =>
      match s.collect with
      | none => .error .noneNotCallable
      | some collect =>
          let t1 := collect t
          match s.offload with
          | none => .error .noneNotCallable
          | some offload =>
              let sink1 := offload t1 sink
              match s.edit with
              | none => .error .noneNotCallable
              | some edit =>
                  let t2 := edit module t1 saveCtx modules
                  match s.disperse with
                  | none => .error .noneNotCallable
                  | some disperse =>
                      let t3 := disperse t2
                      if startShape = t3.shape then .ok (sink1, t3)
                      else .error .shapeMismatchAssert

/-- Claim C2, evaluated at the failing input: with the runtime functions
only partially defined (`_collect` set, the other three still `None`), the
pipeline does not raise the partial-state-corruption error before running
any of them — the `elif not all(fns_are_undefined)` branch silently passes,
`_collect` runs, and the invocation then dies with the Python `TypeError`
from calling the still-`None` `_offload`. The `else: raise Exception(...)`
branch of the source is unreachable: `all(...)` and `not all(...)` exhaust
all cases. -/
theorem C2_partial_state_not_detected :
    templateHandleTensor
      { collect := some (fun u => u), disperse := none, edit := none, offload := none }
      (fun _ => { collect := none, disperse := none, edit := none, offload := none })
      none () () [] ⟨[1], [0]⟩ = .error .noneNotCallable := rfl

/-- The partial-state-corruption branch is dead code: no invocation of the
tensor pipeline, whatever the runtime-function state, ever produces it
(`all(fns_are_undefined)` and `not all(fns_are_undefined)` exhaust all
cases, so the `raise Exception` arm can never run). -/
theorem templateHandleTensor_never_stateCorruption
    (fns : RuntimeFns) (concretize : Tensor → RuntimeFns)
    (module : Module) (saveCtx : SaveCtx) (modules : Modules)
    (sink : Sink) (t : Tensor) :
    templateHandleTensor fns concretize module saveCtx modules sink t ≠
      .error .stateCorruption := by
  intro h
  simp only [templateHandleTensor] at h
  split at h
  · rename_i e heq
    split_ifs at heq <;> simp_all
  · split at h
    · simp at h
    · split at h
      · simp at h
      · split at h
        · simp at h
        · split at h
          · simp at h
          · split at h
            · simp at h
            · simp at h

/-- Claim C3: shape-invariant enforcement — whatever the runtime-function
state, whenever the tensor pipeline returns a tensor (rather than failing),
that tensor has exactly the shape of the input shard; a disperse output
whose shape differs from the pre-collect input trips the
`assert start_shape == tensor.shape` and the pipeline fails with the
shape-mismatch error instead of returning the mis-shaped tensor. -/
theorem C3_shape_invariant
    (fns : RuntimeFns) (concretize : Tensor → RuntimeFns)
    (module : Module) (saveCtx : SaveCtx) (modules : Modules)
    (sink : Sink) (t : Tensor) (sink1 : Sink) (out : Tensor)
    (h : templateHandleTensor fns concretize module saveCtx modules sink t =
      .ok (sink1, out)) :
    out.shape = t.shape := by
  simp only [templateHandleTensor] at h
  split at h
  · simp at h
  · split at h
    · simp at h
    · split at h
      · simp at h
      · split at h
        · simp at h
        · split at h
          · simp at h
          · split at h
            · rename_i hcond
              simp only [Except.ok.injEq, Prod.mk.injEq] at h
              rw [← h.2]
              exact hcond.symm
            · simp at h

/-- Witness for C3: a concrete pipeline run with identity runtime functions
returns a tensor, and that tensor has the input's shape. -/
theorem C3_witness :
    templateHandleTensor
      { collect := some (fun u => u), disperse := some (fun u => u),
        edit := some (fun _ u _ _ => u), offload := some (fun _ s => s) }
      (fun _ => { collect := none, disperse := none, edit := none, offload := none })
      none () () [] ⟨[2], [1, 2]⟩ = .ok ([], ⟨[2], [1, 2]⟩) ∧
    (⟨[2], [1, 2]⟩ : Tensor).shape = (⟨[2], [1, 2]⟩ : Tensor).shape :=
  ⟨rfl,
   C3_shape_invariant
     { collect := some (fun u => u), disperse := some (fun u => u),
       edit := some (fun _ u _ _ => u), offload := some (fun _ s => s) }
     (fun _ => { collect := none, disperse := none, edit := none, offload := none })
     none () () [] ⟨[2], [1, 2]⟩ [] ⟨[2], [1, 2]⟩ rfl⟩

/-! ## Activation transfer (modelled from spec §4.3) -/

/-- Concatenation of equally-shaped shards along a sharded axis, expressed on
flat row-major data: the data of each tensor splits into `outer` blocks of
`b` elements (`b` = axis length times the product of the trailing
dimensions); for each outer index the corresponding blocks of all shards are
laid out in rank order. `concatBlocks b outer shards` recurses over the
outer blocks. -/
def concatBlocks {α : Type} (b : Nat) : Nat → List (List α) → List α
  | 0, _ => []
  | m + 1, shards =>
      (shards.map (fun s => s.take b)).flatten ++
        concatBlocks b m (shards.map (fun s => s.drop b))

/-- Slicing a full tensor back into the local shard along the sharded axis,
on flat row-major data: each outer block of the full tensor consists of `g`
sub-blocks of `b` elements, of which rank `r` keeps the `r`-th. -/
def sliceBlocks {α : Type} (b g r : Nat) : Nat → List α → List α
  | 0, _ => []
  | m + 1, full =>
      ((full.take (g * b)).drop (r * b)).take b ++ sliceBlocks b g r m (full.drop (g * b))

/-- Block extraction from a flattened list of equally-sized blocks. -/
theorem flatten_drop_take {α : Type} (b : Nat) :
    ∀ (blocks : List (List α)) (r : Nat),
    (∀ x ∈ blocks, x.length = b) → r < blocks.length →
    ((blocks.flatten).drop (r * b)).take b = blocks.getD r [] := by
  intro blocks
  induction blocks with
  | nil => intro r _ hr; simp at hr
  | cons hd tl ih =>
      intro r hall hr
      have hhd : hd.length = b := hall hd (by simp)
      cases r with
      | zero =>
          simp only [List.flatten_cons, Nat.zero_mul, List.drop_zero, List.getD_cons_zero]
          exact List.take_left' hhd
      | succ r' =>
          have hdrop : ((hd :: tl).flatten).drop ((r' + 1) * b) =
              (tl.flatten).drop (r' * b) := by
            rw [List.flatten_cons, Nat.succ_mul, Nat.add_comm, ← List.drop_drop,
              List.drop_left' hhd]
          rw [hdrop, List.getD_cons_succ]
          exact ih r' (fun x hx => hall x (by simp [hx])) (by simpa using hr)

/-- The flattened prefix of equally-sized blocks has total length
`count * b`. -/
theorem length_flatten_take_blocks {α : Type} (b : Nat) (shards : List (List α))
    (hlen : ∀ x ∈ shards, b ≤ x.length) :
    ((shards.map (fun s => s.take b)).flatten).length = shards.length * b := by
  induction shards with
  | nil => simp
  | cons hd tl ih =>
      simp only [List.map_cons, List.flatten_cons, List.length_append,
        List.length_take, List.length_cons]
      rw [ih (fun x hx => hlen x (by simp [hx])), Nat.succ_mul]
      have : b ≤ hd.length := hlen hd (by simp)
      omega

/-- `disperse` is the exact inverse of `collect` at the block level: slicing
the rank-order concatenation of `g` equally-sized shards returns rank `r`'s
shard. -/
theorem sliceBlocks_concatBlocks {α : Type} (b g r : Nat) (hr : r < g) :
    ∀ (m : Nat) (shards : List (List α)), shards.length = g →
    (∀ s ∈ shards, s.length = m * b) →
    sliceBlocks b g r m (concatBlocks b m shards) = shards.getD r [] := by
  intro m
  induction m with
  | zero =>
      intro shards hg hlen
      have hmem : shards.getD r [] ∈ shards := by
        rw [List.getD_eq_getElem shards [] (by omega)]
        exact List.getElem_mem (by omega)
      have hzero : (shards.getD r []).length = 0 := by
        simpa using hlen _ hmem
      simp only [sliceBlocks, concatBlocks]
      exact (List.eq_nil_of_length_eq_zero hzero).symm
  | succ m ih =>
      intro shards hg hlen
      have hble : ∀ x ∈ shards, b ≤ x.length := by
        intro x hx; rw [hlen x hx, Nat.succ_mul]; omega
      have hflatlen : ((shards.map (fun s => s.take b)).flatten).length = g * b := by
        rw [length_flatten_take_blocks b shards hble, hg]
      have htakeblocks : ∀ x ∈ shards.map (fun s => s.take b), x.length = b := by
        intro x hx
        obtain ⟨y, hy, rfl⟩ := List.mem_map.mp hx
        simp only [List.length_take]
        have := hlen y hy
        rw [this, Nat.succ_mul]
        omega
      simp only [sliceBlocks, concatBlocks]
      rw [List.take_left' hflatlen, List.drop_left' hflatlen,
        flatten_drop_take b _ r htakeblocks (by simpa [hg] using hr),
        ih (shards.map (fun s => s.drop b)) (by simpa using hg)
          (by intro x hx
              obtain ⟨y, hy, rfl⟩ := List.mem_map.mp hx
              simp only [List.length_drop]
              have := hlen y hy
              rw [this, Nat.succ_mul]
              omega)]
      have hrlen : r < shards.length := by omega
      rw [List.getD_eq_getElem shards [] hrlen,
        List.getD_eq_getElem _ [] (by simpa using hrlen),
        List.getD_eq_getElem _ [] (by simpa using hrlen)]
      simp only [List.getElem_map]
      exact List.take_append_drop b shards[r]

/-- Modelled from the spec: the sharded-axis inference of
`parse_collect_and_distribute_from_tensor` (§4.3), whose implementation in
the distributed activation-transfer module is not part of the given source
files. `expected_shape` has the same rank as the logical full tensor; a
`None` entry means "infer/leave as-is"; a concrete integer at position `i`
that differs from the observed tensor's `shape[i]` identifies axis `i` as
the sharded axis. -/
def shardedAxes (observed : List Nat) (expected : List (Option Nat)) : List Nat :=
  (List.range observed.length).filter fun i =>
    match expected.getD i none with
    | some k => decide (k ≠ observed.getD i 0)
    | none => false

/-- Modelled from the spec: `collect` for a single sharded axis (§4.3) — an
all-gather of the tensor along axis `i` across the tensor-parallel group,
concatenating the `g` ranks' shards in rank order (rank 0's shard first).
The peer ranks' simultaneously contributed shards are the SPMD environment
`peers`; the local rank `r` contributes the tensor passed at runtime. -/
def allGatherAlong (g r i : Nat) (peers : List (List Int)) (u : Tensor) : Tensor :=
  { shape := u.shape.set i (g * u.shape.getD i 0),
    data := concatBlocks ((u.shape.drop i).prod) ((u.shape.take i).prod)
      (peers.set r u.data) }

/-- Modelled from the spec: `disperse` for a single sharded axis (§4.3) —
slice the full tensor along axis `i` into `g` contiguous, equal-sized pieces
and keep only the piece matching the local rank's index. -/
def scatterAlong (g r i : Nat) (u : Tensor) : Tensor :=
  { shape := u.shape.set i (u.shape.getD i 0 / g),
    data := sliceBlocks (u.shape.getD i 0 / g * (u.shape.drop (i + 1)).prod) g r
      ((u.shape.take i).prod) u.data }

/-- Modelled from the spec: `parse_collect_and_distribute_from_tensor`
(§4.3), imported by `hook_function.py` from the distributed module that is
not part of the given source files. If no axis of the observed tensor
differs from `expected_shape`, `collect` and `disperse` are identity
functions (no communication); if exactly one axis differs, they are the
all-gather along that axis and its inverse slice. (At most one sharded axis
is supported; the spec leaves additional differing axes unsupported, so the
first differing axis is used.) -/
def parse_collect_and_distribute_from_tensor (g r : Nat) (peers : List (List Int))
    (t : Tensor) (expected : List (Option Nat)) : (Tensor → Tensor) × (Tensor → Tensor) :=
  match shardedAxes t.shape expected with
  | [] => (id, id)
  | i :: _ => (allGatherAlong g r i peers, scatterAlong g r i)

/-- `HookFunction._concretize_functions` (`hook_function.py:275`): populate
`_collect`/`_disperse` from the distributed parser applied to the observed
tensor and the expected shape, `_edit` from the (parsed) editing function,
and `_offload` from the offload-mode dispatch. -/
def concretize_functions (g r : Nat) (peers : List (List Int))
    (expected : List (Option Nat))
    (editingFunction : Module → Tensor → SaveCtx → Modules → Tensor)
    (utd uad ipp : Bool) (mode : OffloadMode) (moduleName : String)
    (t : Tensor) : RuntimeFns :=
  { collect := some (parse_collect_and_distribute_from_tensor g r peers t expected).1,
    disperse := some (parse_collect_and_distribute_from_tensor g r peers t expected).2,
    edit := some (parse_editing_function editingFunction),
    offload := some (concretize_offload_function utd uad ipp mode moduleName) }

/-- `disperse` is the exact inverse of `collect` on the local shard, for any
valid shard and any tensor-parallel group size: slicing the rank-order
all-gather of equally-shaped shards returns the local shard, in shape and
value. -/
theorem scatterAlong_allGatherAlong (g r i : Nat) (peers : List (List Int))
    (t : Tensor) (hg : 0 < g) (hr : r < g) (hp : peers.length = g)
    (hplen : ∀ p ∈ peers, p.length = t.data.length)
    (hdata : t.data.length = t.shape.prod)
    (hi : i < t.shape.length) :
    scatterAlong g r i (allGatherAlong g r i peers t) = t := by
  obtain ⟨sh, da⟩ := t
  simp only [allGatherAlong, scatterAlong] at *
  have hk : sh.getD i 0 = sh[i] := List.getD_eq_getElem sh 0 hi
  have hset_len : (sh.set i (g * sh.getD i 0)).length = sh.length := by simp
  have hget' : (sh.set i (g * sh.getD i 0)).getD i 0 = g * sh.getD i 0 := by
    rw [List.getD_eq_getElem _ 0 (by omega)]
    simp
  have hdiv : g * sh.getD i 0 / g = sh.getD i 0 := Nat.mul_div_cancel_left _ hg
  have hdropsucc : (sh.set i (g * sh.getD i 0)).drop (i + 1) = sh.drop (i + 1) :=
    drop_set_succ sh i _
  have htake : (sh.set i (g * sh.getD i 0)).take i = sh.take i :=
    take_set_self sh i _
  have hblock : sh.getD i 0 * (sh.drop (i + 1)).prod = (sh.drop i).prod := by
    rw [List.drop_eq_getElem_cons hi, List.prod_cons, hk]
  have hlen_each : ∀ s ∈ peers.set r da, s.length = (sh.take i).prod * (sh.drop i).prod := by
    intro s hs
    have hda : da.length = (sh.take i).prod * (sh.drop i).prod := by
      rw [hdata, ← List.prod_append, List.take_append_drop]
    rcases List.mem_or_eq_of_mem_set hs with hs | rfl
    · rw [hplen s hs]; exact hda
    · exact hda
  have hslice :
      sliceBlocks ((sh.drop i).prod) g r ((sh.take i).prod)
        (concatBlocks ((sh.drop i).prod) ((sh.take i).prod) (peers.set r da)) = da := by
    rw [sliceBlocks_concatBlocks _ g r hr _ (peers.set r da) (by simp [hp]) hlen_each]
    rw [List.getD_eq_getElem _ [] (by simp; omega)]
    simp
  simp only [hget', hdiv, hdropsucc, htake, hblock, hslice, List.set_set]
  congr 1
  rw [hk]
  exact set_getElem_self sh i hi

/-- The parsed `collect`/`disperse` pair is inverse on the observed tensor,
whichever case of the sharded-axis inference applies. -/
theorem parse_disperse_collect (g r : Nat) (peers : List (List Int))
    (t : Tensor) (expected : List (Option Nat))
    (hg : 0 < g) (hr : r < g) (hp : peers.length = g)
    (hplen : ∀ p ∈ peers, p.length = t.data.length)
    (hdata : t.data.length = t.shape.prod) :
    (parse_collect_and_distribute_from_tensor g r peers t expected).2
      ((parse_collect_and_distribute_from_tensor g r peers t expected).1 t) = t := by
  rcases hax : shardedAxes t.shape expected with _ | ⟨i, rest⟩
  · simp [parse_collect_and_distribute_from_tensor, hax]
  · have hi : i < t.shape.length := by
      have hmem : i ∈ shardedAxes t.shape expected := by
        rw [hax]; exact List.mem_cons_self i rest
      simp only [shardedAxes, List.mem_filter, List.mem_range] at hmem
      exact hmem.1
    simp only [parse_collect_and_distribute_from_tensor, hax]
    exact scatterAlong_allGatherAlong g r i peers t hg hr hp hplen hdata hi

/-- Claim C4: with the default (identity) editing function, the full tensor
pipeline (concretize on first sight, then collect, offload, edit, disperse,
shape assertion) returns a tensor bitwise-identical to its input tensor, for
every valid input shard and SPMD environment with tensor-parallel group size
`g ≥ 1`; this rests on disperse being the exact inverse of collect, stated
as the first conjunct. -/
theorem C4_default_edit_pipeline_identity (g r : Nat) (peers : List (List Int))
    (expected : List (Option Nat)) (utd uad ipp : Bool) (mode : OffloadMode)
    (moduleName : String) (module : Module) (sink : Sink) (t : Tensor)
    (hg : 0 < g) (hr : r < g) (hp : peers.length = g)
    (hplen : ∀ p ∈ peers, p.length = t.data.length)
    (hdata : t.data.length = t.shape.prod) :
    (parse_collect_and_distribute_from_tensor g r peers t expected).2
      ((parse_collect_and_distribute_from_tensor g r peers t expected).1 t) = t ∧
    ∃ sink1, templateHandleTensor
        { collect := none, disperse := none, edit := none, offload := none }
        (concretize_functions g r peers expected default_editing_function
          utd uad ipp mode moduleName)
        module () () sink t = .ok (sink1, t) := by
  have hinv := parse_disperse_collect g r peers t expected hg hr hp hplen hdata
  refine ⟨hinv, ⟨concretize_offload_function utd uad ipp mode moduleName
    ((parse_collect_and_distribute_from_tensor g r peers t expected).1 t) sink, ?_⟩⟩
  simp only [templateHandleTensor, concretize_functions, parse_editing_function,
    Option.isNone_none, Option.isNone_some, List.all_cons, List.all_nil]
  unfold default_editing_function
  simp [hinv]

/-- Witness for C4: a concrete pipeline run on a `(2, 2)` shard with axis 1
sharded over a tensor-parallel group of size 2 (expected full shape
`(2, 4)`), rank 1, returns the input shard unchanged, and
`disperse (collect shard) = shard` holds there. -/
theorem C4_witness :
    (0 : Nat) < 2 ∧ (1 : Nat) < 2 ∧
    (parse_collect_and_distribute_from_tensor 2 1 [[5, 6, 7, 8], [1, 2, 3, 4]]
        ⟨[2, 2], [1, 2, 3, 4]⟩ [none, some 4]).2
      ((parse_collect_and_distribute_from_tensor 2 1 [[5, 6, 7, 8], [1, 2, 3, 4]]
        ⟨[2, 2], [1, 2, 3, 4]⟩ [none, some 4]).1 ⟨[2, 2], [1, 2, 3, 4]⟩) =
      ⟨[2, 2], [1, 2, 3, 4]⟩ ∧
    ∃ sink1, templateHandleTensor
        { collect := none, disperse := none, edit := none, offload := none }
        (concretize_functions 2 1 [[5, 6, 7, 8], [1, 2, 3, 4]] [none, some 4]
          default_editing_function false false false .cpu "m")
        none () () [] ⟨[2, 2], [1, 2, 3, 4]⟩ = .ok (sink1, ⟨[2, 2], [1, 2, 3, 4]⟩) := by
  refine ⟨by decide, by decide, ?_⟩
  exact C4_default_edit_pipeline_identity 2 1 [[5, 6, 7, 8], [1, 2, 3, 4]]
    [none, some 4] false false false .cpu "m" none [] ⟨[2, 2], [1, 2, 3, 4]⟩
    (by decide) (by decide) (by decide) (by decide) (by decide)

/-! ## `initialize_distributed_backend` (`distributed_api.py:49`) -/

/-- The assertion failure of `initialize_distributed_backend` when
`world_size != tp * pp * dp`. -/
inductive MeshError where
  | assertionFailed
deriving DecidableEq, Repr

/-- Modelled from the spec: `GPUDeviceMesh` (§4.2), defined in the distributed
backends module that is not part of the given source files — a pure data
structure describing how `world_size` ranks decompose into tensor-parallel ×
pipeline-parallel × data-parallel groups. -/
structure GPUDeviceMesh where
  worldSize : Nat
  tpSize : Nat
  ppSize : Nat
  dpSize : Nat
deriving DecidableEq, Repr

/-- Modelled from the spec: `GPUDeviceMesh.build` (§4.2) — pure data
computation assembling the mesh from the validated sizes; no communication
occurs and no failure is possible here (validation happens in the caller). -/
def GPUDeviceMesh.build (worldSize tpSize ppSize dpSize : Nat) : GPUDeviceMesh :=
  { worldSize := worldSize, tpSize := tpSize, ppSize := ppSize, dpSize := dpSize }

/-- Modelled from the spec: the per-rank peer group along the tensor-parallel
axis (§4.2) — the set of ranks sharing the calling rank's tensor-parallel
group, with consecutive ranks forming each group of `tpSize` (the precise
layout is the backend's; the mesh-validity claim does not depend on it). -/
def GPUDeviceMesh.tpGroupRanks (m : GPUDeviceMesh) (rank : Nat) : List Nat :=
  (List.range m.worldSize).filter fun s => s / m.tpSize = rank / m.tpSize

/-- The active backend singleton `_ACTIVE_BACKEND`: `none` until a backend
(holding its device mesh) is exposed by `_expose_distributed_backend`. -/
abbrev ActiveBackend := Option GPUDeviceMesh

/-- `initialize_distributed_backend` (`distributed_api.py:49`): assert
`world_size == tp * pp * dp` before any other work; on success, build the
`GPUDeviceMesh`, construct the backend for it and expose it as the active
backend; on assertion failure the exception propagates before
`_expose_distributed_backend` runs, so the active-backend state is left
unchanged. (`_parse_backend` probes the runtime distributed state to pick
the torch or accelerate backend class; its branches are exhaustive and it
cannot fail, and which class wraps the mesh is irrelevant to the claim.)
Returns the outcome together with the active-backend state after the call. -/
def initialize_distributed_backend (world_size tensor_parallel_size
    pipeline_parallel_size data_parallel_size : Nat) (active : ActiveBackend) :
    Except MeshError Unit × ActiveBackend :=
  if world_size = tensor_parallel_size * pipeline_parallel_size * data_parallel_size then
    (.ok (), some (GPUDeviceMesh.build world_size tensor_parallel_size
      pipeline_parallel_size data_parallel_size))
  else
    (.error .assertionFailed, active)

/-- Claim C7: mesh validity — initializing the distributed backend with
arguments `(world_size, tp, pp, dp)` succeeds iff
`world_size = tp * pp * dp`; when the product differs from `world_size` it
fails deterministically with the assertion error and installs no backend
(the active-backend state is exactly what it was before the call). -/
theorem C7_mesh_validity (world_size tp pp dp : Nat) (active : ActiveBackend) :
    ((initialize_distributed_backend world_size tp pp dp active).1 = .ok () ↔
      world_size = tp * pp * dp) ∧
    (world_size ≠ tp * pp * dp →
      (initialize_distributed_backend world_size tp pp dp active).1 =
          .error .assertionFailed ∧
        (initialize_distributed_backend world_size tp pp dp active).2 = active) := by
  by_cases h : world_size = tp * pp * dp <;>
    simp [initialize_distributed_backend, h]

/-- Witness for C7: a mismatched mesh (`5 ≠ 2*1*2`) fails with the assertion
error and leaves no backend installed. -/
theorem C7_witness :
    (5 ≠ 2 * 1 * 2) ∧
    (initialize_distributed_backend 5 2 1 2 none).1 = .error .assertionFailed ∧
    (initialize_distributed_backend 5 2 1 2 none).2 = none :=
  ⟨by decide, (C7_mesh_validity 5 2 1 2 none).2 (by decide)⟩

/-! ## `HookFunction._template_handle_layer_outputs` (`hook_function.py:421`) -/

/-- Failures of the layer-outputs pipeline: an unpacking failure, a tensor
pipeline failure, the `AttributeError` Python would hit handing a non-tensor
leaf to the tensor pipeline (unreachable by claim C10), and the repack
running out of leaves (unreachable for templates produced by `flatten`). -/
inductive LayerError where
  | unpack : UnpackError → LayerError
  | hook : HookError → LayerError
  | leafNotATensor
  | repackExhausted
deriving DecidableEq, Repr

/-- `HookFunction._template_handle_layer_outputs` (`hook_function.py:421`):
separate the local activation tensor from the rest of the layer outputs,
run the tensor pipeline on it, and repack the edited tensor back into the
rest of the layer outputs. -/
def template_handle_layer_outputs (fns : RuntimeFns) (concretize : Tensor → RuntimeFns)
    (module : Module) (saveCtx : SaveCtx) (modules : Modules)
    (sink : Sink) (unpackIdx : Nat) (outputs : Obj) : Except LayerError (Sink × Obj) :=
  match unpack_layer_outputs unpackIdx outputs with
  | .error e => .error (.unpack e)
  | .ok (tobj, treedef, left, right) =>
      match tobj with
      | .tensor t =>
          match templateHandleTensor fns concretize module saveCtx modules sink t with
          | .error e => .error (.hook e)
          | .ok (sink1, t1) =>
              match repack treedef left right (.tensor t1) with
              | some out => .ok (sink1, out)
              | none => .error .repackExhausted
      | _ => .error .leafNotATensor

/-- Claim C9: repacking frame property — whenever the layer-outputs pipeline
returns a container, that container equals the original container with only
the leaf at the unpack index replaced by the tensor pipeline's output
tensor (`replaceLeafAt` leaves every other leaf, every scalar value, and
the container structure unchanged). -/
theorem C9_repack_frame (fns : RuntimeFns) (concretize : Tensor → RuntimeFns)
    (module : Module) (saveCtx : SaveCtx) (modules : Modules)
    (sink : Sink) (unpackIdx : Nat) (outputs : Obj) (sink1 : Sink) (out : Obj)
    (h : template_handle_layer_outputs fns concretize module saveCtx modules sink
      unpackIdx outputs = .ok (sink1, out)) :
    ∃ (t t1 : Tensor),
      (flatten outputs).2[unpackIdx]? = some (.tensor t) ∧
      templateHandleTensor fns concretize module saveCtx modules sink t =
        .ok (sink1, t1) ∧
      out = replaceLeafAt outputs unpackIdx (.tensor t1) := by
  simp only [template_handle_layer_outputs] at h
  split at h
  · simp at h
  · rename_i res tobj treedef left right hunpack
    simp only [unpack_layer_outputs] at hunpack
    split at hunpack
    · rename_i hidx
      split at hunpack
      · simp at hunpack
      · rename_i hnone
        simp only [Except.ok.injEq, Prod.mk.injEq] at hunpack
        obtain ⟨htobj, htreedef, hleft, hright⟩ := hunpack
        split at h
        · rename_i tt
          split at h
          · simp at h
          · rename_i pres sink1' t1 hpipe
            split at h
            · rename_i out' hrepack
              simp only [Except.ok.injEq, Prod.mk.injEq] at h
              obtain ⟨hsink, hout⟩ := h
              refine ⟨tt, t1, ?_, ?_, ?_⟩
              · rw [List.getElem?_eq_getElem hidx]
                exact congrArg some ((List.get_eq_getElem _ _).symm.trans htobj)
              · rw [← hsink]; exact hpipe
              · rw [← hout]
                have hset : left ++ [Obj.tensor t1] ++ right =
                    (flatten outputs).2.set unpackIdx (Obj.tensor t1) := by
                  rw [← hleft, ← hright,
                    List.set_eq_take_cons_drop (Obj.tensor t1) hidx]
                  simp
                have hthis := unflattenNode_flatten_set outputs unpackIdx (Obj.tensor t1) [] hidx
                rw [List.append_nil] at hthis
                rw [htreedef] at hthis
                have hrep : repack treedef left right (Obj.tensor t1) =
                    some (replaceLeafAt outputs unpackIdx (Obj.tensor t1)) := by
                  simp [repack, unflatten, hset, hthis]
                rw [hrep] at hrepack
                injection hrepack with hq
                exact hq.symm
            · simp at h
        · simp at h
    · simp at hunpack

/-- Witness for C9: a concrete layer-outputs run with identity runtime
functions on a tuple holding one tensor and one scalar, unpack index 0. -/
theorem C9_witness :
    template_handle_layer_outputs
      { collect := some (fun u => u), disperse := some (fun u => u),
        edit := some (fun _ u _ _ => u), offload := some (fun _ s => s) }
      (fun _ => { collect := none, disperse := none, edit := none, offload := none })
      none () () [] 0 (.tup [.tensor ⟨[1], [5]⟩, .scalar (.sInt 3)]) =
      .ok ([], .tup [.tensor ⟨[1], [5]⟩, .scalar (.sInt 3)]) ∧
    ∃ (t t1 : Tensor),
      (flatten (.tup [.tensor ⟨[1], [5]⟩, .scalar (.sInt 3)])).2[0]? =
        some (.tensor t) ∧
      templateHandleTensor
        { collect := some (fun u => u), disperse := some (fun u => u),
          edit := some (fun _ u _ _ => u), offload := some (fun _ s => s) }
        (fun _ => { collect := none, disperse := none, edit := none, offload := none })
        none () () [] t = .ok ([], t1) ∧
      (Obj.tup [.tensor ⟨[1], [5]⟩, .scalar (.sInt 3)]) =
        replaceLeafAt (.tup [.tensor ⟨[1], [5]⟩, .scalar (.sInt 3)]) 0 (.tensor t1) := by
  have hrun : template_handle_layer_outputs
      { collect := some (fun u => u), disperse := some (fun u => u),
        edit := some (fun _ u _ _ => u), offload := some (fun _ s => s) }
      (fun _ => { collect := none, disperse := none, edit := none, offload := none })
      none () () [] 0 (.tup [.tensor ⟨[1], [5]⟩, .scalar (.sInt 3)]) =
      .ok ([], .tup [.tensor ⟨[1], [5]⟩, .scalar (.sInt 3)]) := by
    simp [template_handle_layer_outputs, unpack_layer_outputs, flatten, flattenList,
      templateHandleTensor, repack, unflatten, unflattenNode, unflattenList, isNoneObj]
  exact ⟨hrun, C9_repack_frame _ _ none () () [] 0 _ [] _ hrun⟩

end FlexModel
